import Mathlib

/-!
Verification of the Asset-Browser thumbnail pipeline (shallow embedding).

The definitions below are translated from the repository's Python sources:
  * `src/utils/file_utils.py`   (archive / extension classification)
  * `src/thumbnail/cache.py`    (cache key derivation, cache root layout)
  * `src/thumbnail/image_processor.py` (HDR tonemap, decoders, metadata)
  * `src/thumbnail/thumb_task.py` (task orchestration, compositor geometry)

Python strings are modelled as `List Char` (`Str`), with structural
re-implementations of the string primitives the sources use, so that all
classification functions are kernel-computable.  Path handling models POSIX
(`os.sep = "/"`, ASCII case folding).  Filesystem and media-library effects
(stat, OpenCV, OpenImageIO) are passed in as explicit oracle values.  Python
floats are modelled by exact rationals; the final gamma step of the tonemap by
real-number exponentiation.
-/

namespace AssetBrowser

/-- Python `str`, modelled as a list of characters. -/
abbrev Str := List Char

/-- Convert a Lean string literal to the `Str` model. -/
def str (s : String) : Str := s.data

/-- Python `s.split(sep)` for a one-character separator: `"".split` yields
`[""]`, and separators at the ends yield empty fields. -/
def splitOnSep (sep : Char) : Str → List Str
  | [] => [[]]
  | c :: rest =>
    let r := splitOnSep sep rest
    if c = sep then [] :: r
    else
      match r with
      | [] => [[c]]
      | h :: t => (c :: h) :: t

/-- Python `sep.join(parts)` for a one-character separator. -/
def joinSep (sep : Char) : List Str → Str
  | [] => []
  | [x] => x
  | x :: xs => x ++ sep :: joinSep sep xs

/-- Python `s.lower()` (ASCII model). -/
def lower (s : Str) : Str := s.map Char.toLower

/-- Python `s.upper()` (ASCII model). -/
def upper (s : Str) : Str := s.map Char.toUpper

/-- Python `s.endswith(suffix)`. -/
def endsWith (s suffix : Str) : Bool := suffix.isSuffixOf s

/-- Python `s.startswith(prefix)`. -/
def startsWith (s pre : Str) : Bool := pre.isPrefixOf s

/-- Python `s.replace(old, new)` for one-character `old`/`new`. -/
def replaceChar (old new : Char) (s : Str) : Str :=
  s.map (fun c => if c = old then new else c)

/-- POSIX model of the number of initial slashes kept by `os.path.normpath`
(1 for a leading "/", 2 for exactly two leading slashes, else 0). -/
def initialSlashes (p : Str) : Nat :=
  if startsWith p ['/', '/'] && ! startsWith p ['/', '/', '/'] then 2
  else if startsWith p ['/'] then 1 else 0

/-- One step of the component loop of `posixpath.normpath`: skip empty and "."
components; append a component unless it is a ".." that cancels a previous
real component. -/
def normStep (slashes : Nat) (acc : List Str) (comp : Str) : List Str :=
  if comp = [] ∨ comp = ['.'] then acc
  else if comp ≠ ['.', '.'] ∨ (slashes = 0 ∧ acc = []) ∨ acc.getLast? = some ['.', '.'] then
    acc ++ [comp]
  else acc.dropLast

/-- Model of `os.path.normpath` on POSIX (`posixpath.normpath`): collapse
duplicate separators and "." components and resolve ".." lexically. -/
def normpath (p : Str) : Str :=
  if p = [] then ['.'] else
  let slashes := initialSlashes p
  let comps := (splitOnSep '/' p).foldl (normStep slashes) []
  let res := List.replicate slashes '/' ++ joinSep '/' comps
  if res = [] then ['.'] else res

/-- Split a character list at the last occurrence of `sep`:
returns (part up to and including the last `sep`, part after it).
If `sep` does not occur, returns `([], l)`. -/
def splitLastOn (sep : Char) (l : Str) : Str × Str :=
  let s := l.reverse.span (fun c => c ≠ sep)
  (s.2.reverse, s.1.reverse)

/-- Model of `os.path.splitext` (POSIX): the extension starts at the last dot
of the basename, provided that dot is not part of the basename's leading run
of dots. -/
def splitext (p : Str) : Str × Str :=
  let db := splitLastOn '/' p
  let leading := db.2.takeWhile (fun c => c = '.')
  let rest := db.2.dropWhile (fun c => c = '.')
  if rest.contains '.' then
    let s := rest.reverse.span (fun c => c ≠ '.')
    (db.1 ++ leading ++ s.2.reverse.dropLast, '.' :: s.1.reverse)
  else (p, [])

/-- `SUPPORTED_VIDEO_EXTS` from `src/config/constants.py`. -/
def SUPPORTED_VIDEO_EXTS : List Str :=
  [str ".mp4", str ".mov", str ".avi", str ".mkv", str ".webm"]

/-- `SUPPORTED_IMAGE_EXTS` from `src/config/constants.py`. -/
def SUPPORTED_IMAGE_EXTS : List Str :=
  [str ".jpg", str ".jpeg", str ".png", str ".bmp", str ".tiff", str ".tif",
   str ".gif", str ".exr", str ".hdr", str ".dpx", str ".psd", str ".svg", str ".jp2"]

/-- `is_video` from `src/utils/file_utils.py`. -/
def is_video (path : Str) : Bool :=
  SUPPORTED_VIDEO_EXTS.contains (lower (splitext path).2)

/-- `is_image` from `src/utils/file_utils.py`. -/
def is_image (path : Str) : Bool :=
  SUPPORTED_IMAGE_EXTS.contains (lower (splitext path).2)

/-- The archive extension set used by `is_in_archive` / `get_archive_name`. -/
def archive_extensions : List Str :=
  [str ".7z", str ".zip", str ".rar", str ".tar", str ".gz", str ".bz2"]

/-- The normalized path segments scanned by the archive helpers:
`os.path.normpath(path).split(os.sep)`. -/
def pathParts (path : Str) : List Str := splitOnSep '/' (normpath path)

/-- A path segment counts as an archive when its lowercase form ends with one
of the archive extensions. -/
def isArchivePart (part : Str) : Bool :=
  archive_extensions.any (fun ext => endsWith (lower part) ext)

/-- `is_in_archive` from `src/utils/file_utils.py`. -/
def is_in_archive (path : Str) : Bool := (pathParts path).any isArchivePart

/-- `get_archive_name` from `src/utils/file_utils.py`: the for-loop returns the
first matching segment, else the empty string. -/
def get_archive_name (path : Str) : Str :=
  ((pathParts path).find? isArchivePart).getD []

/-- The character a decimal digit `d < 10` renders to in a Python f-string. -/
def digitChar (d : Nat) : Char := Char.ofNat (48 + d)

/-- Decimal rendering of a non-negative integer, as Python's `f"{n}"`. -/
def natDigits (n : Nat) : Str :=
  if h : n < 10 then [digitChar n]
  else natDigits (n / 10) ++ [digitChar (n % 10)]
decreasing_by
  exact Nat.div_lt_self (by omega) (by omega)

/-- `THUMB_CACHE_VERSION` from `src/config/constants.py`. -/
def THUMB_CACHE_VERSION : Str := str "2"

/-- The hash payload built by `CacheManager.hash_for_file` when `os.stat`
succeeds: `f"{THUMB_CACHE_VERSION}|{path}|{st.st_mtime_ns}|{st.st_size}"`. -/
def statPayload (path : Str) (mtimeNs size : Nat) : Str :=
  THUMB_CACHE_VERSION ++ '|' :: path ++ '|' :: natDigits mtimeNs ++ '|' :: natDigits size

/-- The fallback hash payload of `CacheManager.hash_for_file` when the file is
missing: `f"{THUMB_CACHE_VERSION}|{path}"`. -/
def missingPayload (path : Str) : Str :=
  THUMB_CACHE_VERSION ++ '|' :: path

/-- `CacheManager.hash_for_file` from `src/thumbnail/cache.py`.  The filesystem
`os.stat` is an oracle: `some (st_mtime_ns, st_size)` when the stat succeeds,
`none` for `FileNotFoundError`; `sha1hex` is the digest function
`fun payload => hashlib.sha1(payload).hexdigest()`. -/
def hash_for_file (sha1hex : Str → Str) (stat : Option (Nat × Nat)) (path : Str) : Str :=
  match stat with
  | some (mtimeNs, size) => sha1hex (statPayload path mtimeNs size)
  | none => sha1hex (missingPayload path)

/-- Evaluation of a decimal digit string back to a number (used to show the
payload determines its numeric fields). -/
def ofDigits (l : Str) : Nat := l.foldl (fun a c => 10 * a + (c.toNat - 48)) 0

/-- `thumb_height = int(thumb_size * 9 / 16)` from `ThumbTask._make_thumbnail`
(Python `int()` truncation of the exact quotient). -/
def thumb_height (thumb_size : ℕ) : ℕ := thumb_size * 9 / 16

/-- `scale = min(thumb_size / w, thumb_height / h)` from
`ThumbTask._make_thumbnail` (exact-rational model of the float computation). -/
def fitScale (h w thumb_size : ℕ) : ℚ :=
  min ((thumb_size : ℚ) / (w : ℚ)) ((thumb_height thumb_size : ℚ) / (h : ℚ))

/-- `new_w = max(1, int(w * scale))`: Python `int()` truncates, which on these
non-negative values is the floor. -/
def new_w (h w thumb_size : ℕ) : ℤ := max 1 ⌊(w : ℚ) * fitScale h w thumb_size⌋

/-- `new_h = max(1, int(h * scale))`. -/
def new_h (h w thumb_size : ℕ) : ℤ := max 1 ⌊(h : ℚ) * fitScale h w thumb_size⌋

/-- `x0 = (thumb_size - new_w) // 2` (Python floor division). -/
def paste_x (h w thumb_size : ℕ) : ℤ :=
  ((thumb_size : ℤ) - new_w h w thumb_size).fdiv 2

/-- `y0 = (thumb_height - new_h) // 2` (Python floor division). -/
def paste_y (h w thumb_size : ℕ) : ℤ :=
  ((thumb_height thumb_size : ℤ) - new_h h w thumb_size).fdiv 2

/-- Dimensions (width, height) of the canvas
`np.full((thumb_height, thumb_size, 3), THUMB_BG, np.uint8)`. -/
def canvas_dims (thumb_size : ℕ) : ℕ × ℕ := (thumb_size, thumb_height thumb_size)

/-- A raw float sample of a decoded HDR image, as classified by
`np.nan_to_num`: NaN, an infinity, or a finite value (modelled exactly by a
rational). -/
inductive PyFloat where
  | nan
  | pinf
  | ninf
  | val (q : ℚ)

/-- `np.nan_to_num(arr, nan=0.0, posinf=1e4, neginf=0.0)` on one sample. -/
def nan_to_num : PyFloat → ℚ
  | .nan => 0
  | .pinf => 10000
  | .ninf => 0
  | .val q => q

/-- An RGB pixel. -/
abbrev Pix (α : Type) := α × α × α

/-- `np.nan_to_num` applied channel-wise to one pixel. -/
def sanitizePix (p : Pix PyFloat) : Pix ℚ :=
  (nan_to_num p.1, nan_to_num p.2.1, nan_to_num p.2.2)

/-- `lum = 0.2126 * R + 0.7152 * G + 0.0722 * B` from
`ImageProcessor.tonemap_float_image`. -/
def luminance (p : Pix ℚ) : ℚ := 0.2126 * p.1 + 0.7152 * p.2.1 + 0.0722 * p.2.2

/-- `np.percentile(xs, q)` with the default linear interpolation method on a
non-empty list (exact-rational model): virtual index `(n-1)*q/100` into the
ascending sort, interpolating linearly between the two bracketing entries. -/
def percentile (xs : List ℚ) (q : ℚ) : ℚ :=
  let s := xs.mergeSort (fun a b => decide (a ≤ b))
  let hidx : ℚ := ((s.length : ℚ) - 1) * q / 100
  let k : ℕ := (⌊hidx⌋).toNat
  s.getD k 0 + (hidx - (k : ℚ)) * (s.getD (k + 1) 0 - s.getD k 0)

/-- `p95 = float(np.percentile(nz if nz.size else flat, 95)) if flat.size else
1.0` from `ImageProcessor.tonemap_float_image`, where `nz` is the list of
strictly positive luminances. -/
def p95of (lums : List ℚ) : ℚ :=
  let nz := lums.filter (fun x => decide (0 < x))
  if lums = [] then 1 else percentile (if nz = [] then lums else nz) 95

/-- `scale = 0.85 / max(p95, 1e-6)` computed from the sanitized image. -/
def tonemapScale (img : List (Pix ℚ)) : ℚ :=
  0.85 / max (p95of (img.map luminance)) 0.000001

/-- Reinhard-style compression `x / (1 + x)` (Lean's division-by-zero
convention makes the x = -1 pole 0, which agrees with the float pipeline after
the subsequent clip). -/
def reinhard (x : ℚ) : ℚ := x / (1 + x)

/-- `np.clip(arr, 0.0, 1.0)` on one sample. -/
def clip01 (x : ℚ) : ℚ := min (max x 0) 1

/-- Gamma correction `np.power(arr, 1.0 / 2.2)` on one sample (real-number
exponentiation). -/
noncomputable def gamma22 (x : ℚ) : ℝ := (x : ℝ) ^ ((1 : ℝ) / 2.2)

/-- The per-channel tail of the tonemap: multiply by the global scale, apply
Reinhard compression, clip to [0,1], apply gamma. -/
noncomputable def tonemapPix (sc : ℚ) (p : Pix ℚ) : Pix ℝ :=
  (gamma22 (clip01 (reinhard (p.1 * sc))),
   gamma22 (clip01 (reinhard (p.2.1 * sc))),
   gamma22 (clip01 (reinhard (p.2.2 * sc))))

/-- `ImageProcessor.tonemap_float_image` from
`src/thumbnail/image_processor.py`: sanitize NaN/Inf, compute the global p95
luminance scale, then map the scale/Reinhard/clip/gamma tail over all pixels. -/
noncomputable def tonemap_float_image (img : List (Pix PyFloat)) : List (Pix ℝ) :=
  let s := img.map sanitizePix
  s.map (tonemapPix (tonemapScale s))

/-- The 8-bit quantization `(arr * 255.0 + 0.5).astype(np.uint8)` of one
sample (truncation of a non-negative value is the floor). -/
noncomputable def quant8 (x : ℝ) : ℤ := ⌊x * 255 + 0.5⌋

/-- Labels for the media open attempts made by the raster decoders. -/
inductive Dec where
  | videoOpen
  | oiioOpen
  | cvOpen
deriving DecidableEq

/-- A decoded raster, abstracted to an opaque token. -/
abbrev Frame := ℕ

/-- Effect oracle for one `ThumbTask` execution: the results of the filesystem
and media-library calls the task makes.  `Except.error` models a raised
exception. -/
structure Env where
  mkdirRoot : Except Unit Unit
  mkdirShard : Except Unit Unit
  cacheExists : Bool
  cacheRead : Option Frame
  fileExists : Bool
  videoCap : Option Frame
  oiioAvailable : Bool
  oiioRead : Option Frame
  cvRead : Except Unit (Option Frame)
  oiioMeta : Str
  videoMetaPlain : Str
  writeOk : Bool

/-- `ext = os.path.splitext(path)[1].upper(); ext[1:] if ext else 'Unknown'`
from `ImageProcessor.get_video_metadata`. -/
def extFormatLabel (path : Str) : Str :=
  let ext := upper (splitext path).2
  if ext = [] then str "Unknown" else ext.drop 1

/-- `ImageProcessor.get_video_metadata`: the archive and missing-file branches
return their literal strings before any reader is opened; the metadata string
of an existing video (openable or not) is summarized by the oracle
`env.videoMetaPlain`. -/
def get_video_metadata (env : Env) (path : Str) : Str :=
  match (splitOnSep '/' (normpath path)).find? isArchivePart with
  | some name =>
      str "Video file in archive: " ++ name ++ str "\nFormat: " ++ extFormatLabel path
        ++ str "\nNote: Extract archive to view video"
  | none =>
      if env.fileExists then env.videoMetaPlain
      else str "Video file not found\nFormat: " ++ extFormatLabel path

/-- `ImageProcessor.extract_frame_video`: refuses archive-contained paths and
missing files before opening any reader; otherwise one VideoCapture open
happens and the oracle decides the frame.  The second component records the
media open attempts. -/
def extract_frame_video (env : Env) (path : Str) : Option Frame × List Dec :=
  if (splitOnSep '/' (normpath path)).any isArchivePart then (none, [])
  else if env.fileExists then (env.videoCap, [Dec.videoOpen])
  else (none, [])

/-- `ImageProcessor.read_metadata_oiio`: empty when the library is missing, a
fixed label for video extensions, else the oracle string; never raises. -/
def read_metadata_oiio (env : Env) (path : Str) : Str :=
  if env.oiioAvailable = false then []
  else if SUPPORTED_VIDEO_EXTS.contains (lower (splitext path).2) then
    str "Video file: " ++ upper (lower (splitext path).2)
  else env.oiioMeta

/-- `ImageProcessor.read_image_oiio`: returns no raster without opening when
the library is unavailable or the extension is a video extension; otherwise
one OIIO open is attempted and the oracle decides the raster (all exceptions
are caught inside and yield None). -/
def read_image_oiio (env : Env) (path : Str) : Option Frame × List Dec :=
  if env.oiioAvailable = false then (none, [])
  else if SUPPORTED_VIDEO_EXTS.contains (lower (splitext path).2) then (none, [])
  else (env.oiioRead, [Dec.oiioOpen])

/-- Python `meta or fallback`: the empty string is falsy. -/
def metaOr (m fallback : Str) : Str := if m = [] then fallback else m

/-- The visible outcome of `ThumbTask._make_thumbnail`. -/
inductive Outcome where
  | cached (f : Frame) (meta : Str)
  | placeholder (archive : Bool) (meta : Str)
  | composited (f : Frame) (meta : Str)
deriving DecidableEq

/-- Result of one `_make_thumbnail` run: the outcome (or a propagated
exception), the raster-decode media open attempts, and whether a cache write
was attempted. -/
structure MTOut where
  outcome : Except Unit Outcome
  opens : List Dec
  wrote : Bool

/-- The decode dispatch of `ThumbTask._make_thumbnail` on a cache miss, on the
already-normalized path: video extensions use only the video frame extractor;
recognized image extensions use OIIO and fall back to cv2.imread when OIIO
yields None (a raised cv2.error is caught and leaves no raster); unrecognized
extensions try cv2.imread and fall back to OIIO only when cv2.imread raises.
Returns (raster, metadata, open attempts). -/
def decodeDispatch (env : Env) (np : Str) : Option Frame × Str × List Dec :=
  if is_video np then
    let r := extract_frame_video env np
    (r.1, get_video_metadata env np, r.2)
  else if is_image np then
    let r := read_image_oiio env np
    let m := read_metadata_oiio env np
    match r.1 with
    | some f => (some f, m, r.2)
    | none =>
      match env.cvRead with
      | .ok rr => (rr, m, r.2 ++ [Dec.cvOpen])
      | .error _ => (none, m, r.2 ++ [Dec.cvOpen])
  else
    match env.cvRead with
    | .ok rr => (rr, read_metadata_oiio env np, [Dec.cvOpen])
    | .error _ =>
      let r := read_image_oiio env np
      (r.1, read_metadata_oiio env np, Dec.cvOpen :: r.2)

/-- The post-decode tail of `_make_thumbnail`: when no raster was decoded,
build the (archive-aware) placeholder and perform no cache write; otherwise
composite and attempt the cache write (write failures are caught and only
logged, so the outcome does not depend on `env.writeOk`). -/
def decodeAndFinish (env : Env) (path : Str) : MTOut :=
  match decodeDispatch env (normpath path) with
  | (some f, m, opens) => ⟨.ok (.composited f m), opens, true⟩
  | (none, m, opens) =>
    if is_in_archive path then
      ⟨.ok (.placeholder true (metaOr m
        (str "File in compressed archive: " ++ get_archive_name path
          ++ str "\nExtract archive to view content"))), opens, false⟩
    else
      ⟨.ok (.placeholder false (metaOr m (str "(unsupported or failed to load)"))),
        opens, false⟩

/-- `ThumbTask._make_thumbnail`: unprotected cache-directory creation (a
failure propagates), cache probe (an unreadable cache file falls through to
decode), then decode and finish.  `opens` records raster-decode open attempts
only, not metadata probes. -/
def make_thumbnail (env : Env) (path : Str) : MTOut :=
  match env.mkdirRoot with
  | .error e => ⟨.error e, [], false⟩
  | .ok _ =>
    match env.mkdirShard with
    | .error e => ⟨.error e, [], false⟩
    | .ok _ =>
      if env.cacheExists then
        match env.cacheRead with
        | some f =>
          ⟨.ok (.cached f (if is_video path then get_video_metadata env path
            else read_metadata_oiio env path)), [], false⟩
        | none => decodeAndFinish env path
      else decodeAndFinish env path

/-- `ThumbTask.run`: the list of `ThumbResult`s delivered to the collaborator —
one per completed `_make_thumbnail`, none when it raises (the exception
escapes `run` and the signal is never emitted). -/
def run_deliveries (env : Env) (path : Str) : List Outcome :=
  match (make_thumbnail env path).outcome with
  | .ok o => [o]
  | .error _ => []

/-- An all-success effect oracle in which every decode yields no raster. -/
def envOk : Env :=
  { mkdirRoot := .ok (), mkdirShard := .ok (), cacheExists := false,
    cacheRead := none, fileExists := true, videoCap := none,
    oiioAvailable := true, oiioRead := none, cvRead := .ok none,
    oiioMeta := [], videoMetaPlain := [], writeOk := true }

/-- `os.path.join(a, b)` on POSIX (two-argument case). -/
def joinPath (a b : Str) : Str :=
  if startsWith b ['/'] then b
  else if a = [] ∨ endsWith a ['/'] then a ++ b
  else a ++ '/' :: b

/-- `os.path.basename` on POSIX: the part after the last separator. -/
def basename (p : Str) : Str := (splitOnSep '/' p).getLastD []

/-- The sanitizer of `CacheManager.generate_cache_root`:
`rel_path.replace(os.sep, "_").replace("/", "_").replace("\\", "_")`
(POSIX: `os.sep = "/"`). -/
def sanitizeRel (r : Str) : Str :=
  replaceChar '\\' '_' (replaceChar '/' '_' (replaceChar '/' '_' r))

/-- `CacheManager.generate_cache_root` from `src/thumbnail/cache.py`.
`os.path.relpath` is purely lexical; it is passed as an oracle
`relpath folder project` (`Except.error` models the `ValueError` raised for a
folder on another drive). -/
def generate_cache_root (relpath : Str → Str → Except Unit Str)
    (current_project : Option Str) (folder : Str) : Str :=
  match current_project with
  | some proj =>
    match relpath folder proj with
    | .ok rel =>
      if rel ≠ [] ∧ rel ≠ ['.'] then
        joinPath (joinPath proj (basename proj ++ str "_AssetBrowserCache")) (sanitizeRel rel)
      else joinPath proj (basename proj ++ str "_AssetBrowserCache")
    | .error _ => joinPath proj (basename proj ++ str "_AssetBrowserCache")
  | none => joinPath folder (str ".assetbrowser_cache")

/-- The amended C3 geometry statement: the canvas is exactly
`thumb_size × ⌊thumb_size*9/16⌋`; the pasted content size uses the floor
(Python `int()` truncation) of `w*scale` / `h*scale` — not `round` — with a
lower bound of 1; the paste offsets are the Python floor divisions of the
claim; and the two opposite paddings are equal or differ by one pixel. -/
def C3Spec (h w thumb_size : ℕ) : Prop :=
  canvas_dims thumb_size = (thumb_size, thumb_size * 9 / 16) ∧
  new_w h w thumb_size =
    max 1 ⌊(w : ℚ) * min ((thumb_size : ℚ) / (w : ℚ)) (((thumb_size * 9 / 16 : ℕ) : ℚ) / (h : ℚ))⌋ ∧
  new_h h w thumb_size =
    max 1 ⌊(h : ℚ) * min ((thumb_size : ℚ) / (w : ℚ)) (((thumb_size * 9 / 16 : ℕ) : ℚ) / (h : ℚ))⌋ ∧
  paste_x h w thumb_size = ((thumb_size : ℤ) - new_w h w thumb_size).fdiv 2 ∧
  paste_y h w thumb_size = ((thumb_height thumb_size : ℤ) - new_h h w thumb_size).fdiv 2 ∧
  ((thumb_size : ℤ) - new_w h w thumb_size - 2 * paste_x h w thumb_size = 0 ∨
   (thumb_size : ℤ) - new_w h w thumb_size - 2 * paste_x h w thumb_size = 1) ∧
  ((thumb_height thumb_size : ℤ) - new_h h w thumb_size - 2 * paste_y h w thumb_size = 0 ∨
   (thumb_height thumb_size : ℤ) - new_h h w thumb_size - 2 * paste_y h w thumb_size = 1)

theorem isArchivePart_empty_false : isArchivePart [] = false := by decide

/-- C10: `is_in_archive path` is true exactly when `get_archive_name path` is a
non-empty string; `get_archive_name` returns the first normalized segment whose
lowercase form ends with one of the archive extensions; and a path whose final
segment is itself an archive file name (`"movie.zip"`) is classified as being
in an archive. -/
theorem C10_archive_name_iff :
    (∀ path : Str, is_in_archive path = true ↔ get_archive_name path ≠ []) ∧
    (∀ path : Str,
      get_archive_name path = ((pathParts path).find? isArchivePart).getD []) ∧
    is_in_archive (str "movie.zip") = true := by
  refine ⟨?_, fun _ => rfl, by decide⟩
  intro path
  constructor
  · intro h
    rcases List.any_eq_true.mp h with ⟨x, hx, hpx⟩
    unfold get_archive_name
    cases hfind : (pathParts path).find? isArchivePart with
    | none =>
      exact absurd hpx (by simpa using (List.find?_eq_none.mp hfind x hx))
    | some a =>
      have ha : isArchivePart a = true := List.find?_some hfind
      intro hcontra
      simp only [Option.getD_some] at hcontra
      rw [hcontra] at ha
      simp [isArchivePart_empty_false] at ha
  · intro h
    unfold get_archive_name at h
    cases hfind : (pathParts path).find? isArchivePart with
    | none => rw [hfind] at h; simp at h
    | some a =>
      have ha : isArchivePart a = true := List.find?_some hfind
      have hmem : a ∈ pathParts path := List.mem_of_find?_eq_some hfind
      exact List.any_eq_true.mpr ⟨a, hmem, ha⟩

theorem digitChar_toNat {d : Nat} (h : d < 10) : (digitChar d).toNat = 48 + d := by
  interval_cases d <;> decide

theorem digitChar_ne_bar {d : Nat} (h : d < 10) : digitChar d ≠ '|' := by
  interval_cases d <;> decide

theorem natDigits_ne_bar (n : Nat) : ∀ c ∈ natDigits n, c ≠ '|' := by
  induction n using Nat.strong_induction_on with
  | _ n ih =>
    intro c hc
    rw [natDigits] at hc
    split at hc
    · next h =>
      simp only [List.mem_singleton] at hc
      subst hc
      exact digitChar_ne_bar h
    · next h =>
      rw [List.mem_append] at hc
      rcases hc with hc | hc
      · exact ih (n / 10) (Nat.div_lt_self (by omega) (by omega)) c hc
      · simp only [List.mem_singleton] at hc
        subst hc
        exact digitChar_ne_bar (Nat.mod_lt _ (by omega))

theorem ofDigits_append_digit (l : Str) (c : Char) :
    ofDigits (l ++ [c]) = 10 * ofDigits l + (c.toNat - 48) := by
  unfold ofDigits
  rw [List.foldl_append]
  rfl

theorem ofDigits_natDigits (n : Nat) : ofDigits (natDigits n) = n := by
  induction n using Nat.strong_induction_on with
  | _ n ih =>
    rw [natDigits]
    split
    · next h =>
      show ofDigits ([] ++ [digitChar n]) = n
      rw [ofDigits_append_digit, digitChar_toNat h]
      simp [ofDigits]
    · next h =>
      rw [ofDigits_append_digit, ih (n / 10) (Nat.div_lt_self (by omega) (by omega)),
        digitChar_toNat (Nat.mod_lt _ (by omega))]
      omega

theorem natDigits_injective : Function.Injective natDigits := by
  intro a b h
  have h2 := congrArg ofDigits h
  rwa [ofDigits_natDigits, ofDigits_natDigits] at h2

theorem bar_cons_inj {u v a b : Str}
    (hu : ∀ c ∈ u, c ≠ '|') (hv : ∀ c ∈ v, c ≠ '|')
    (h : u ++ '|' :: a = v ++ '|' :: b) : u = v ∧ a = b := by
  induction u generalizing v with
  | nil =>
    cases v with
    | nil =>
      refine ⟨rfl, ?_⟩
      simpa using h
    | cons y ys =>
      exfalso
      simp only [List.nil_append, List.cons_append, List.cons.injEq] at h
      exact hv y (by simp) h.1.symm
  | cons x xs ih =>
    cases v with
    | nil =>
      exfalso
      simp only [List.cons_append, List.nil_append, List.cons.injEq] at h
      exact hu x (by simp) h.1
    | cons y ys =>
      simp only [List.cons_append, List.cons.injEq] at h
      obtain ⟨hxy, htail⟩ := h
      obtain ⟨h1, h2⟩ :=
        ih (fun c hc => hu c (by simp [hc])) (fun c hc => hv c (by simp [hc])) htail
      exact ⟨by rw [hxy, h1], h2⟩

/-- C1: `hash_for_file` returns the SHA-1 digest of the
version|path|mtime|size payload when the file's stat succeeds, the digest of
the version|path payload when the file is missing, and is deterministic: for a
fixed path with unchanged stat data and the fixed cache-format version, every
call returns the identical key. -/
theorem C1_hash_for_file (sha1hex : Str → Str) (stat : Option (Nat × Nat)) (path : Str) :
    (∀ m s, stat = some (m, s) →
      hash_for_file sha1hex stat path = sha1hex (statPayload path m s)) ∧
    (stat = none → hash_for_file sha1hex stat path = sha1hex (missingPayload path)) ∧
    (∀ stat₂, stat = stat₂ →
      hash_for_file sha1hex stat path = hash_for_file sha1hex stat₂ path) := by
  refine ⟨?_, ?_, ?_⟩
  · rintro m s rfl; rfl
  · rintro rfl; rfl
  · rintro stat₂ rfl; rfl

/-- Witness for C1 at a concrete digest function, stat result and path. -/
theorem C1_hash_for_file_witness :
    hash_for_file (fun _ => str "digest") (some (5, 7)) (str "a")
      = (fun _ => str "digest") (statPayload (str "a") 5 7) :=
  (C1_hash_for_file (fun _ => str "digest") (some (5, 7)) (str "a")).1 5 7 rfl

/-- C7: the stat payload is injective over (path, mtime, size): equal payloads
force equal path, mtime and size.  Changing a file's mtime or size while
keeping the path changes the payload, and changing only the path changes the
payload, so two distinct source files can collide only through a collision of
the underlying SHA-1 hash itself. -/
theorem C7_payload_injective (p₁ p₂ : Str) (m₁ s₁ m₂ s₂ : Nat)
    (h : statPayload p₁ m₁ s₁ = statPayload p₂ m₂ s₂) :
    p₁ = p₂ ∧ m₁ = m₂ ∧ s₁ = s₂ := by
  have hrev := congrArg List.reverse h
  simp only [statPayload, List.reverse_append, List.reverse_cons, List.append_assoc,
    List.singleton_append, List.cons_append, List.nil_append] at hrev
  have hDs₁ : ∀ c ∈ (natDigits s₁).reverse, c ≠ '|' :=
    fun c hc => natDigits_ne_bar s₁ c (List.mem_reverse.mp hc)
  have hDs₂ : ∀ c ∈ (natDigits s₂).reverse, c ≠ '|' :=
    fun c hc => natDigits_ne_bar s₂ c (List.mem_reverse.mp hc)
  have hDm₁ : ∀ c ∈ (natDigits m₁).reverse, c ≠ '|' :=
    fun c hc => natDigits_ne_bar m₁ c (List.mem_reverse.mp hc)
  have hDm₂ : ∀ c ∈ (natDigits m₂).reverse, c ≠ '|' :=
    fun c hc => natDigits_ne_bar m₂ c (List.mem_reverse.mp hc)
  obtain ⟨hs, hrest⟩ := bar_cons_inj hDs₁ hDs₂ hrev
  obtain ⟨hm, hrest₂⟩ := bar_cons_inj hDm₁ hDm₂ hrest
  have hp : p₁.reverse = p₂.reverse := List.append_cancel_right hrest₂
  refine ⟨List.reverse_injective hp, ?_, ?_⟩
  · exact natDigits_injective (List.reverse_injective hm)
  · exact natDigits_injective (List.reverse_injective hs)

/-- Witness for C7 at a concrete payload equality. -/
theorem C7_payload_injective_witness :
    str "a" = str "a" ∧ (5 : Nat) = 5 ∧ (7 : Nat) = 7 :=
  C7_payload_injective (str "a") (str "a") 5 7 5 7 rfl

theorem sub_two_fdiv (d : ℤ) : d - 2 * d.fdiv 2 = 0 ∨ d - 2 * d.fdiv 2 = 1 := by
  rw [Int.fdiv_eq_ediv _ (by omega)]
  omega

/-- C3 counterexample: for a 7×6 raster at target width 16, the code's pasted
width `max(1, int(w*scale))` is 7, while the claim's `max(1, round(w*scale))`
is 8 (`scale = 9/7`, `w*scale = 54/7`). -/
theorem C3_counterexample :
    ¬ (new_w 7 6 16 = max 1 (round ((6 : ℚ) * fitScale 7 6 16))) := by
  have h1 : fitScale 7 6 16 = 9 / 7 := by
    unfold fitScale thumb_height
    rw [min_def]
    norm_num
  rw [new_w, h1, round_eq]
  norm_num

/-- C3 amended: for a decoded raster of size (h, w), h ≥ 1, w ≥ 1, and target
width ≥ 1, the canvas is exactly `thumb_size × ⌊thumb_size*9/16⌋`, the pasted
content size is `max(1, ⌊w*scale⌋) × max(1, ⌊h*scale⌋)` (floor / Python
`int()` truncation, not `round`), the paste offsets are the centering floor
divisions, and the two opposite paddings are equal or differ by one pixel. -/
theorem C3_amended (h w thumb_size : ℕ) (hh : 1 ≤ h) (hw : 1 ≤ w) (hW : 1 ≤ thumb_size) :
    C3Spec h w thumb_size := by
  refine ⟨rfl, rfl, rfl, rfl, rfl, ?_, ?_⟩
  · exact sub_two_fdiv ((thumb_size : ℤ) - new_w h w thumb_size)
  · exact sub_two_fdiv ((thumb_height thumb_size : ℤ) - new_h h w thumb_size)

/-- Witness for the amended C3 at a concrete 2×3 raster and width 16. -/
theorem C3_amended_witness : C3Spec 2 3 16 :=
  C3_amended 2 3 16 (by decide) (by decide) (by decide)

theorem clip01_bounds (x : ℚ) : 0 ≤ clip01 x ∧ clip01 x ≤ 1 := by
  unfold clip01
  exact ⟨le_min (le_max_right x 0) zero_le_one, min_le_right _ _⟩

theorem gamma22_clip_bounds (x : ℚ) :
    0 ≤ gamma22 (clip01 x) ∧ gamma22 (clip01 x) ≤ 1 := by
  obtain ⟨h0, h1⟩ := clip01_bounds x
  have h0' : (0 : ℝ) ≤ ((clip01 x : ℚ) : ℝ) := by exact_mod_cast h0
  have h1' : ((clip01 x : ℚ) : ℝ) ≤ 1 := by exact_mod_cast h1
  unfold gamma22
  exact ⟨Real.rpow_nonneg h0' _, Real.rpow_le_one h0' h1' (by norm_num)⟩

theorem quant8_bounds (y : ℝ) (h0 : 0 ≤ y) (h1 : y ≤ 1) :
    0 ≤ quant8 y ∧ quant8 y ≤ 255 := by
  unfold quant8
  constructor
  · apply Int.floor_nonneg.mpr
    nlinarith
  · have hlt : y * 255 + 0.5 < ((256 : ℤ) : ℝ) := by
      push_cast
      nlinarith
    have := Int.floor_lt.mpr hlt
    omega

theorem channel_bounds (x : ℚ) :
    0 ≤ gamma22 (clip01 x) ∧ gamma22 (clip01 x) ≤ 1 ∧
    0 ≤ quant8 (gamma22 (clip01 x)) ∧ quant8 (gamma22 (clip01 x)) ≤ 255 := by
  obtain ⟨h0, h1⟩ := gamma22_clip_bounds x
  obtain ⟨h2, h3⟩ := quant8_bounds _ h0 h1
  exact ⟨h0, h1, h2, h3⟩

/-- C2: `tonemap_float_image` is exactly the composition sanitize → global p95
scale (`0.85 / max(p95, 1e-6)`) → per-channel scale, Reinhard `x/(1+x)`, clip
to [0,1], gamma `x^(1/2.2)`; `p95` is the 95th percentile of the strictly
positive luminances, of all luminances when none are positive, and 1.0 for an
empty image; consequently every output channel lies in [0,1] and its 8-bit
quantization lies in [0,255] (the output is a finite real: no NaN/Inf). -/
theorem C2_tonemap (img : List (Pix PyFloat)) :
    tonemap_float_image img
      = (img.map sanitizePix).map
          (tonemapPix (0.85 / max (p95of ((img.map sanitizePix).map luminance)) 0.000001)) ∧
    p95of [] = 1 ∧
    (∀ lums : List ℚ, p95of lums =
      if lums = [] then 1
      else if lums.filter (fun x => decide (0 < x)) = [] then percentile lums 95
      else percentile (lums.filter (fun x => decide (0 < x))) 95) ∧
    (tonemap_float_image img).Forall (fun p =>
      (0 ≤ p.1 ∧ p.1 ≤ 1 ∧ 0 ≤ quant8 p.1 ∧ quant8 p.1 ≤ 255) ∧
      (0 ≤ p.2.1 ∧ p.2.1 ≤ 1 ∧ 0 ≤ quant8 p.2.1 ∧ quant8 p.2.1 ≤ 255) ∧
      (0 ≤ p.2.2 ∧ p.2.2 ≤ 1 ∧ 0 ≤ quant8 p.2.2 ∧ quant8 p.2.2 ≤ 255)) := by
  refine ⟨rfl, by simp [p95of], ?_, ?_⟩
  · intro lums
    unfold p95of
    by_cases hl : lums = []
    · simp [hl]
    · simp only [if_neg hl]
      by_cases hnz : lums.filter (fun x => decide (0 < x)) = []
      · simp [hnz]
      · simp [hnz]
  · rw [List.forall_iff_forall_mem]
    intro p hp
    simp only [tonemap_float_image] at hp
    rcases List.mem_map.mp hp with ⟨q, hq, rfl⟩
    exact ⟨channel_bounds _, channel_bounds _, channel_bounds _⟩

theorem decodeAndFinish_ok (env : Env) (path : Str) :
    ∃ o, (decodeAndFinish env path).outcome = Except.ok o := by
  unfold decodeAndFinish
  split
  · exact ⟨_, rfl⟩
  · split
    · exact ⟨_, rfl⟩
    · exact ⟨_, rfl⟩

theorem decodeAndFinish_wrote (env : Env) (path : Str) :
    (decodeAndFinish env path).wrote =
      (match (decodeAndFinish env path).outcome with
       | .ok (.composited _ _) => true
       | _ => false) := by
  unfold decodeAndFinish
  split
  · rfl
  · split <;> rfl

theorem decodeAndFinish_opens (env : Env) (path : Str) :
    (decodeAndFinish env path).opens = (decodeDispatch env (normpath path)).2.2 := by
  unfold decodeAndFinish
  split
  · next f m opens heq => rw [heq]
  · next m opens heq =>
    split <;> rw [heq]

/-- C5 counterexample: when cache-root creation raises (`os.makedirs` at the
top of `_make_thumbnail` is not wrapped in try/except), the exception escapes
`run` and zero results are delivered, refuting exactly-one delivery for a
failure in the cache-root creation step. -/
theorem C5_counterexample :
    ¬ ((run_deliveries { envOk with mkdirRoot := Except.error () } (str "a.png")).length = 1) := by
  decide

/-- C5 amended: whenever the cache-root and shard directory creations succeed,
`run` delivers exactly one result: every other failure (unreadable cache file,
decode failure of any decoder, cache-write failure) degrades to the
placeholder or composited path, and no branch raises or delivers twice. -/
theorem C5_amended (env : Env) (path : Str)
    (h1 : env.mkdirRoot = Except.ok ()) (h2 : env.mkdirShard = Except.ok ()) :
    (run_deliveries env path).length = 1 := by
  unfold run_deliveries make_thumbnail
  rw [h1, h2]
  dsimp only
  by_cases hc : env.cacheExists
  · rw [if_pos hc]
    cases hcr : env.cacheRead with
    | some f => rfl
    | none =>
      obtain ⟨o, ho⟩ := decodeAndFinish_ok env path
      rw [ho]
      rfl
  · rw [if_neg hc]
    obtain ⟨o, ho⟩ := decodeAndFinish_ok env path
    rw [ho]
    rfl

/-- Witness for the amended C5 at a concrete all-success oracle. -/
theorem C5_amended_witness : (run_deliveries envOk (str "a.png")).length = 1 :=
  C5_amended envOk (str "a.png") rfl rfl

/-- C9: a cache write is attempted exactly when the decode produced a raster
that was composited.  In particular, whenever decoding yields no raster the
task builds the placeholder and performs no cache write (and a cache hit also
writes nothing), so placeholder canvases are never persisted to the cache. -/
theorem C9_placeholder_no_write (env : Env) (path : Str) :
    (make_thumbnail env path).wrote =
      (match (make_thumbnail env path).outcome with
       | .ok (.composited _ _) => true
       | _ => false) := by
  unfold make_thumbnail
  split
  · rfl
  · split
    · rfl
    · by_cases hc : env.cacheExists
      · rw [if_pos hc]
        cases hcr : env.cacheRead with
        | some f => rfl
        | none => exact decodeAndFinish_wrote env path
      · rw [if_neg hc]
        exact decodeAndFinish_wrote env path

theorem extract_frame_video_opens (env : Env) (path : Str) :
    (extract_frame_video env path).2 = [] ∨
    (extract_frame_video env path).2 = [Dec.videoOpen] := by
  unfold extract_frame_video
  split
  · exact Or.inl rfl
  · split
    · exact Or.inr rfl
    · exact Or.inl rfl

theorem decodeDispatch_video_eq (env : Env) (path : Str) (hv : is_video path = true) :
    decodeDispatch env path =
      ((extract_frame_video env path).1, get_video_metadata env path,
        (extract_frame_video env path).2) := by
  unfold decodeDispatch
  rw [if_pos hv]

/-- C4 counterexample: with an unrecognized extension, when the generic
decoder (cv2.imread) returns no raster but raises no exception, the code never
invokes the high-fidelity (OIIO) decoder — refuting the claimed fallback
"whenever it yields no raster".  The OIIO fallback is guarded only by
`except cv2.error`. -/
theorem C4_counterexample :
    ¬ ((decodeDispatch { envOk with oiioRead := some 7 } (str "file.xyz")).1 = none →
       Dec.oiioOpen ∈ (decodeDispatch { envOk with oiioRead := some 7 } (str "file.xyz")).2.2) := by
  decide

/-- C4 amended: on a cache miss (or unreadable cache file, treated identically
to a miss), dispatch is by extension — a video extension uses only the video
frame extractor (no OIIO or cv2 open); a recognized image extension attempts
the OIIO open first and cv2.imread follows exactly when OIIO yields no raster;
an unrecognized extension attempts cv2.imread first, and the OIIO fallback
runs only when cv2.imread raises an exception (a None result without an
exception does not trigger it). -/
theorem C4_amended (env : Env) (path : Str) :
    (is_video path = true →
      (decodeDispatch env path).2.2 = (extract_frame_video env path).2 ∧
      Dec.oiioOpen ∉ (decodeDispatch env path).2.2 ∧
      Dec.cvOpen ∉ (decodeDispatch env path).2.2) ∧
    (is_video path = false → is_image path = true →
      (decodeDispatch env path).2.2 =
        (read_image_oiio env path).2 ++
          (if (read_image_oiio env path).1 = none then [Dec.cvOpen] else [])) ∧
    (is_video path = false → is_image path = false →
      (decodeDispatch env path).2.2 =
        Dec.cvOpen :: (match env.cvRead with
          | .ok _ => []
          | .error _ => (read_image_oiio env path).2)) ∧
    (env.mkdirRoot = Except.ok () → env.mkdirShard = Except.ok () →
      env.cacheExists = false ∨ env.cacheRead = none →
      (make_thumbnail env path).opens = (decodeDispatch env (normpath path)).2.2) := by
  refine ⟨?_, ?_, ?_, ?_⟩
  · intro hv
    rw [decodeDispatch_video_eq env path hv]
    refine ⟨rfl, ?_, ?_⟩
    · rcases extract_frame_video_opens env path with h | h <;> rw [h] <;> decide
    · rcases extract_frame_video_opens env path with h | h <;> rw [h] <;> decide
  · intro hv hi
    cases ho : (read_image_oiio env path).1 with
    | some f => simp [decodeDispatch, hv, hi, ho]
    | none =>
      cases hcv : env.cvRead with
      | ok rr => simp [decodeDispatch, hv, hi, ho, hcv]
      | error e => simp [decodeDispatch, hv, hi, ho, hcv]
  · intro hv hi
    cases hcv : env.cvRead with
    | ok rr => simp [decodeDispatch, hv, hi, hcv]
    | error e => simp [decodeDispatch, hv, hi, hcv]
  · intro h1 h2 hmiss
    unfold make_thumbnail
    rw [h1, h2]
    dsimp only
    rcases hmiss with hce | hcr
    · rw [hce]
      exact decodeAndFinish_opens env path
    · by_cases hc : env.cacheExists
      · rw [if_pos hc, hcr]
        exact decodeAndFinish_opens env path
      · rw [if_neg hc]
        exact decodeAndFinish_opens env path

/-- Witness for the amended C4: the video conjunct at a concrete video path
and the unrecognized-extension conjunct at a concrete opaque path. -/
theorem C4_amended_witness :
    ((decodeDispatch envOk (str "m.mp4")).2.2 = (extract_frame_video envOk (str "m.mp4")).2 ∧
      Dec.oiioOpen ∉ (decodeDispatch envOk (str "m.mp4")).2.2 ∧
      Dec.cvOpen ∉ (decodeDispatch envOk (str "m.mp4")).2.2) ∧
    (decodeDispatch envOk (str "file.xyz")).2.2 =
      Dec.cvOpen :: (match envOk.cvRead with
        | .ok _ => []
        | .error _ => (read_image_oiio envOk (str "file.xyz")).2) :=
  ⟨(C4_amended envOk (str "m.mp4")).1 (by decide),
   (C4_amended envOk (str "file.xyz")).2.2.1 (by decide) (by decide)⟩

theorem find?_archive_of_in_archive {path : Str} (h : is_in_archive path = true) :
    (pathParts path).find? isArchivePart = some (get_archive_name path) := by
  rcases List.any_eq_true.mp h with ⟨x, hx, hpx⟩
  cases hfind : (pathParts path).find? isArchivePart with
  | none => exact absurd hpx (by simpa using List.find?_eq_none.mp hfind x hx)
  | some a => simp [get_archive_name, hfind]

/-- C6 counterexample: for an image-extension path inside an archive
(`"a.zip/img.png"`), the pipeline does attempt to open the file as media (an
OIIO open and a cv2.imread open are both made), refuting the claimed
universal no-open short-circuit for archive paths: only the video frame
extractor short-circuits. -/
theorem C6_counterexample :
    is_in_archive (str "a.zip/img.png") = true ∧
    (make_thumbnail envOk (str "a.zip/img.png")).opens ≠ [] := by
  decide

/-- C6 amended: for a normalized path with a recognized video extension lying
inside an archive, on a cache miss with the cache directories creatable, the
video frame extractor short-circuits before opening any reader (no media open
attempt is made at all), and the task delivers the archive placeholder whose
metadata text contains the name of the archive segment. -/
theorem C6_amended (env : Env) (path : Str)
    (hnorm : normpath path = path)
    (hvid : is_video path = true) (harc : is_in_archive path = true)
    (h1 : env.mkdirRoot = Except.ok ()) (h2 : env.mkdirShard = Except.ok ())
    (hmiss : env.cacheExists = false) :
    (make_thumbnail env path).opens = [] ∧
    ∃ pre post, (make_thumbnail env path).outcome =
      Except.ok (Outcome.placeholder true (pre ++ get_archive_name path ++ post)) := by
  have harcP : (splitOnSep '/' (normpath path)).any isArchivePart = true := by
    have h0 := harc
    unfold is_in_archive pathParts at h0
    exact h0
  have hfind : (splitOnSep '/' (normpath path)).find? isArchivePart
      = some (get_archive_name path) := by
    have h0 := find?_archive_of_in_archive harc
    unfold pathParts at h0
    exact h0
  have hext : extract_frame_video env path = (none, []) := by
    unfold extract_frame_video
    rw [if_pos harcP]
  have hmeta : get_video_metadata env path =
      str "Video file in archive: " ++ get_archive_name path ++
        (str "\nFormat: " ++ extFormatLabel path
          ++ str "\nNote: Extract archive to view video") := by
    unfold get_video_metadata
    rw [hfind]
    simp [List.append_assoc]
  have hdisp : decodeDispatch env (normpath path) =
      (none, get_video_metadata env path, []) := by
    rw [hnorm, decodeDispatch_video_eq env path hvid, hext]
  have hmt : make_thumbnail env path = decodeAndFinish env path := by
    unfold make_thumbnail
    rw [h1, h2, hmiss]
    rfl
  have hne : str "Video file in archive: " ++ get_archive_name path ++
      (str "\nFormat: " ++ extFormatLabel path
        ++ str "\nNote: Extract archive to view video") ≠ [] := by
    intro hcontra
    rw [List.append_assoc] at hcontra
    exact absurd (List.append_eq_nil.mp hcontra).1 (by decide)
  have hfin : decodeAndFinish env path =
      ⟨Except.ok (Outcome.placeholder true (str "Video file in archive: "
          ++ get_archive_name path ++
          (str "\nFormat: " ++ extFormatLabel path
            ++ str "\nNote: Extract archive to view video"))), [], false⟩ := by
    unfold decodeAndFinish
    rw [hdisp]
    dsimp only
    rw [if_pos harc, hmeta]
    unfold metaOr
    rw [if_neg hne]
  rw [hmt, hfin]
  exact ⟨rfl, str "Video file in archive: ",
    str "\nFormat: " ++ extFormatLabel path ++ str "\nNote: Extract archive to view video",
    rfl⟩

/-- Witness for the amended C6 at a concrete archive-contained video path. -/
theorem C6_amended_witness :
    (make_thumbnail envOk (str "a.zip/m.mp4")).opens = [] ∧
    ∃ pre post, (make_thumbnail envOk (str "a.zip/m.mp4")).outcome =
      Except.ok (Outcome.placeholder true
        (pre ++ get_archive_name (str "a.zip/m.mp4") ++ post)) :=
  C6_amended envOk (str "a.zip/m.mp4") (by decide) (by decide) (by decide) rfl rfl rfl

/-- C8: `generate_cache_root` is a pure function of (project-or-none, folder)
given the lexical `os.path.relpath`: with an active project it returns
`<project>/<projectName>_AssetBrowserCache`, extended by the sanitized
project-relative subpath (path separators replaced by underscores) when the
folder lies inside the project (relative path neither empty nor "."); when
the relative-path computation fails for a folder outside the project it falls
back to the root without the subpath suffix; with no active project it
returns `<folder>/.assetbrowser_cache`. -/
theorem C8_cache_root (relpath : Str → Str → Except Unit Str) (proj folder : Str) :
    (∀ rel, relpath folder proj = Except.ok rel →
      generate_cache_root relpath (some proj) folder =
        (if rel ≠ [] ∧ rel ≠ ['.'] then
          joinPath (joinPath proj (basename proj ++ str "_AssetBrowserCache")) (sanitizeRel rel)
        else joinPath proj (basename proj ++ str "_AssetBrowserCache"))) ∧
    (∀ e, relpath folder proj = Except.error e →
      generate_cache_root relpath (some proj) folder =
        joinPath proj (basename proj ++ str "_AssetBrowserCache")) ∧
    generate_cache_root relpath none folder = joinPath folder (str ".assetbrowser_cache") ∧
    (∀ relpath₂ : Str → Str → Except Unit Str,
      relpath folder proj = relpath₂ folder proj →
      generate_cache_root relpath (some proj) folder
        = generate_cache_root relpath₂ (some proj) folder) := by
  refine ⟨?_, ?_, rfl, ?_⟩
  · intro rel hr
    unfold generate_cache_root
    dsimp only
    rw [hr]
  · intro e hr
    unfold generate_cache_root
    dsimp only
    rw [hr]
  · intro relpath₂ heq
    unfold generate_cache_root
    dsimp only
    rw [heq]

/-- Witness for C8 at a concrete project, folder and relative path. -/
theorem C8_cache_root_witness :
    generate_cache_root (fun _ _ => Except.ok (str "shots/seq1")) (some (str "/work/proj"))
        (str "/work/proj/shots/seq1") =
      (if str "shots/seq1" ≠ [] ∧ str "shots/seq1" ≠ ['.'] then
        joinPath
          (joinPath (str "/work/proj") (basename (str "/work/proj") ++ str "_AssetBrowserCache"))
          (sanitizeRel (str "shots/seq1"))
      else joinPath (str "/work/proj") (basename (str "/work/proj") ++ str "_AssetBrowserCache")) :=
  (C8_cache_root (fun _ _ => Except.ok (str "shots/seq1")) (str "/work/proj")
    (str "/work/proj/shots/seq1")).1 (str "shots/seq1") rfl

end AssetBrowser
